import Mathlib

/-!
Shallow embedding of the DynamicThreshold-Hedging backtest engine
(class `Backtester` of `src/interfaces.ts`, together with the record
types of that file and the default configuration of `src/config.ts`).

Modelling conventions:
- JS `number` values are modelled as exact rationals (`ℚ`); the
  arithmetic of the engine (window sums, means, percentages, threshold
  comparisons) is carried out exactly.
- Decimal strings produced by `toFixed(p)` are modelled by the rational
  values they denote (`roundToFixed p x`); within one run the precision
  is fixed, so this encoding is faithful to string comparison.
- Timestamps (`moment(t).format(...)`) are modelled by the raw numeric
  `openTime` value: the formatting is an injective renaming and no claim
  depends on the rendered text.
- Thrown exceptions are modelled with `Except String`; the string is the
  thrown message.
- Fields that the engine never reads are omitted: the raw exchange
  fields `quoteAssetVolume`, `trades`, `takerBuyBaseAssetVolume`,
  `takerBuyQuoteAssetVolume`, `ignore` of `CandleData`, the date-range,
  market and batch-mode fields of `TradingConfig`, and the asset-name /
  precision fields of `SymbolInfo` other than `pricePrecision` and
  `quantityPrecision`.
- File and console I/O (`loadData` CSV parsing, `console.log`, the JSON
  file write of `saveResults`) is outside the model; `loadData` is
  modelled by its state effect (`mkBacktester`: store the candle list
  and count it into `totalCandles`), and `saveResults` by the value it
  assembles and the error it can throw.
-/

/-- OHLCV candle record (source interface `CandleData`). The source field
`open` is renamed `openPrice` because `open` is a Lean keyword. -/
structure CandleData where
  openTime : Nat
  openPrice : ℚ
  high : ℚ
  low : ℚ
  close : ℚ
  volume : ℚ
  closeTime : Nat
  deriving DecidableEq, Inhabited

/-- Candle details in formatted form (source interface `CandleDetails`);
the formatted decimal strings are modelled by the rationals they denote. -/
structure CandleDetails where
  openPrice : ℚ
  high : ℚ
  low : ℚ
  close : ℚ
  volume : ℚ
  deriving DecidableEq, Inhabited

/-- The literal union type of `Entry.reason` in the source. -/
inductive EntryReason where
  | UpwardThresholdMet
  | DownwardThresholdMet
  deriving DecidableEq, Inhabited

/-- The literal union type of `Entry.side` in the source. -/
inductive Side where
  | LONG
  | SHORT
  deriving DecidableEq, Inhabited

/-- Simulated entry (source interface `Entry`). `formatted_price` is the
price rounded to the symbol price precision (the source appends a
constant literal suffix to the rounded string). -/
structure Entry where
  reason : EntryReason
  side : Side
  price : ℚ
  formatted_price : ℚ
  time : Nat
  candlesUntilThreshold : Nat
  PositionEntryCandleDetails : CandleDetails
  deriving DecidableEq, Inhabited

/-- The nested `LegendCandle` object of a `ThresholdResult`. -/
structure LegendCandleInfo where
  currentDynamicThreshold : ℚ
  upwardThreshold : ℚ
  downwardThreshold : ℚ
  LegendCandleDifference : ℚ
  LegendCandleDetails : CandleDetails
  deriving DecidableEq, Inhabited

/-- Result record for one detected legend candle (source interface
`ThresholdResult`). -/
structure ThresholdResult where
  Legend_Candle_no : Nat
  timestamp : Nat
  LegendCandle : LegendCandleInfo
  entry : Option Entry
  success : Bool
  deriving DecidableEq, Inhabited

/-- Symbol precision metadata (source interface `SymbolInfo`, restricted
to the fields the engine reads). -/
structure SymbolInfo where
  symbol : String
  pricePrecision : Nat
  quantityPrecision : Nat
  deriving DecidableEq, Inhabited

/-- The engine-relevant part of the source interface `TradingConfig`,
flattened: `trade.maxLookForwardCandles`, `strategy.lookbackPeriod.candles`
(as `lookbackCandles`; read by nobody in the engine),
`strategy.lookbackPeriod.threshold`, `strategy.lookbackPeriod.thresholdMultiplier`
and `singleBacktest.timeframe`. -/
structure TradingConfig where
  maxLookForwardCandles : Nat
  lookbackCandles : Nat
  threshold : ℚ
  thresholdMultiplier : ℚ
  timeframe : String
  deriving DecidableEq, Inhabited

/-- Run statistics (the `stats` object of `BacktestResult` and the value
of `getStats`). -/
structure Stats where
  totalCandles : Nat
  legendCandles : Nat
  successfulTrades : Nat
  successRate : ℚ
  deriving DecidableEq, Inhabited

/-- Aggregate output record (source interface `BacktestResult`). -/
structure BacktestResult where
  symbol : String
  timeframe : String
  symbolInfo : SymbolInfo
  config : TradingConfig
  results : List ThresholdResult
  stats : Stats
  deriving DecidableEq, Inhabited

/-- The mutable fields of class `Backtester`. -/
structure BState where
  symbol : String
  runConfig : TradingConfig
  candles : List CandleData
  totalCandles : Nat
  legendCandles : Nat
  successfulTrades : Nat
  symbolInfo : Option SymbolInfo
  deriving DecidableEq, Inhabited

/-- The default configuration of `src/config.ts` (engine-relevant part). -/
def defaultConfig : TradingConfig :=
  { maxLookForwardCandles := 100
    lookbackCandles := 200
    threshold := 15
    thresholdMultiplier := 15
    timeframe := "1m" }

/-- `Backtester.getLookbackPeriod`: the timeframe-keyed lookback table with
fallback 200 (`timeframeMap[this.runConfig.singleBacktest.timeframe] || 200`). -/
def getLookbackPeriod (cfg : TradingConfig) : Nat :=
  match cfg.timeframe with
  | "1m" => 200
  | "3m" => 150
  | "5m" => 120
  | "15m" => 100
  | "30m" => 80
  | "1h" => 60
  | "2h" => 48
  | "4h" => 36
  | "6h" => 24
  | "8h" => 20
  | "12h" => 15
  | "1d" => 10
  | _ => 200

/-- JS `x.toFixed(prec)` modelled on exact rationals: round to `prec`
decimal places (half rounds up) and return the denoted rational. -/
def roundToFixed (prec : Nat) (x : ℚ) : ℚ :=
  (((x * 10 ^ prec + 1 / 2).floor : ℤ) : ℚ) / 10 ^ prec

/-- `Backtester.formatPrice`: throws when the symbol info is not set,
otherwise `price.toFixed(this.symbolInfo.pricePrecision)`. -/
def formatPrice : Option SymbolInfo → ℚ → Except String ℚ
  | none, _ => Except.error ("Symbol info not set")
  | some info, price => Except.ok (roundToFixed info.pricePrecision price)

/-- `Backtester.formatCandleDetails`: `formatPrice` applied to each OHLC
field, volume passed through unchanged. The shared symbol-info check of
the four `formatPrice` calls is factored to the front; the value and the
thrown error are unchanged. -/
def formatCandleDetails : Option SymbolInfo → CandleData → Except String CandleDetails
  | none, _ => Except.error ("Symbol info not set")
  | some info, candle =>
    Except.ok
      { openPrice := roundToFixed info.pricePrecision candle.openPrice
        high := roundToFixed info.pricePrecision candle.high
        low := roundToFixed info.pricePrecision candle.low
        close := roundToFixed info.pricePrecision candle.close
        volume := candle.volume }

/-- The slice `this.candles.slice(index - lookbackPeriod, index)` used as
the lookback window (in `isLegendCandle` and in `findThresholds`). -/
def lookbackWindow (candles : List CandleData) (lookbackPeriod index : Nat) : List CandleData :=
  (candles.drop (index - lookbackPeriod)).take lookbackPeriod

/-- The average movement of a lookback window: map each candle to
`Math.abs((close - open) / open) * 100`, then sum (`reduce` with initial
value 0) divided by the length of the mapped list (lines 300 to 303 and
440 to 443 of `src/interfaces.ts`). -/
def averageDiffOf (lookbackCandles : List CandleData) : ℚ :=
  let previousDiffs := lookbackCandles.map (fun c => |(c.close - c.openPrice) / c.openPrice| * 100)
  previousDiffs.sum / (previousDiffs.length : ℚ)

/-- The dynamic threshold computed by the `findThresholds` loop for
position `index`: window average times `thresholdMultiplier`
(line 444 of `src/interfaces.ts`). -/
def dynamicThresholdAt (candles : List CandleData) (cfg : TradingConfig) (index : Nat) : ℚ :=
  averageDiffOf (lookbackWindow candles (getLookbackPeriod cfg) index) * cfg.thresholdMultiplier

/-- `Backtester.isLegendCandle`: the classification gate. Computes the
movement of the current candle and compares it against
`threshold * averageDiff` (the base threshold config value, line 304). -/
def isLegendCandle (candles : List CandleData) (cfg : TradingConfig) (index : Nat) : Bool :=
  let lookbackPeriod := getLookbackPeriod cfg
  if index < lookbackPeriod then false
  else
    let lookbackCandles := lookbackWindow candles lookbackPeriod index
    let currentCandle := candles.getD index default
    let currentDiff := |currentCandle.close - currentCandle.openPrice| / currentCandle.openPrice * 100
    let averageDiff := averageDiffOf lookbackCandles
    let dynamicThreshold := cfg.threshold * averageDiff
    decide (dynamicThreshold ≤ currentDiff)

/-- `thresholdValue = candle.close * (dynamicThreshold / 100)`
(line 327 of `src/interfaces.ts`). -/
def thresholdValueOf (candle : CandleData) (dynamicThreshold : ℚ) : ℚ :=
  candle.close * (dynamicThreshold / 100)

/-- `upwardThreshold = candle.close + thresholdValue` (line 328). -/
def upwardThresholdOf (candle : CandleData) (dynamicThreshold : ℚ) : ℚ :=
  candle.close + thresholdValueOf candle dynamicThreshold

/-- `downwardThreshold = candle.close - thresholdValue` (line 329). -/
def downwardThresholdOf (candle : CandleData) (dynamicThreshold : ℚ) : ℚ :=
  candle.close - thresholdValueOf candle dynamicThreshold

/-- A forward candle triggers an entry when its high reaches the upward
threshold or its low reaches the downward threshold. -/
def entryTrigger (upward downward : ℚ) (candle : CandleData) : Prop :=
  upward ≤ candle.high ∨ candle.low ≤ downward

instance (u d : ℚ) (c : CandleData) : Decidable (entryTrigger u d c) := by
  unfold entryTrigger
  infer_instance

/-- The candle range scanned for an entry after a legend candle at
`candleIndex`: the loop of lines 360 to 364 visits exactly the indices
`candleIndex + 1` up to `min(candleIndex + maxLookForward, length - 1)`,
i.e. the list `drop (candleIndex + 1)` cut to `maxLookForwardCandles`. -/
def lookForwardSlice (candles : List CandleData) (cfg : TradingConfig) (candleIndex : Nat) : List CandleData :=
  (candles.drop (candleIndex + 1)).take cfg.maxLookForwardCandles

/-- The forward entry scan (loop body of lines 360 to 395): walk the
forward candles in order, counting `candlesChecked` up from the given
start value; the upward comparison is tested first, the downward one
only in its `else` branch; the first trigger stops the scan. -/
def scanForward (osi : Option SymbolInfo) (upwardThreshold downwardThreshold : ℚ) :
    Nat → List CandleData → Except String (Option Entry)
  | _, [] => Except.ok none
  | candlesChecked, futureCandle :: rest =>
    let checked := candlesChecked + 1
    if upwardThreshold ≤ futureCandle.high then
      match formatPrice osi upwardThreshold, formatCandleDetails osi futureCandle with
      | Except.ok fp, Except.ok det =>
          Except.ok (some
            { reason := EntryReason.UpwardThresholdMet
              side := Side.LONG
              price := upwardThreshold
              formatted_price := fp
              time := futureCandle.openTime
              candlesUntilThreshold := checked
              PositionEntryCandleDetails := det })
      | Except.error e, _ => Except.error e
      | _, Except.error e => Except.error e
    else if futureCandle.low ≤ downwardThreshold then
      match formatPrice osi downwardThreshold, formatCandleDetails osi futureCandle with
      | Except.ok fp, Except.ok det =>
          Except.ok (some
            { reason := EntryReason.DownwardThresholdMet
              side := Side.SHORT
              price := downwardThreshold
              formatted_price := fp
              time := futureCandle.openTime
              candlesUntilThreshold := checked
              PositionEntryCandleDetails := det })
      | Except.error e, _ => Except.error e
      | _, Except.error e => Except.error e
    else scanForward osi upwardThreshold downwardThreshold checked rest

/-- `Backtester.processLegendCandle` (lines 316 to 398): returns `none`
when the `isLegendCandle` gate fails, otherwise builds the
`ThresholdResult` (thresholds formatted through `formatPrice`, which
throws when the symbol info is unset; `currentDynamicThreshold` uses the
JS soft default `this.symbolInfo?.pricePrecision || 2`, where a
precision of 0 is falsy) and then runs the forward entry scan, attaching
the entry and setting `success` when one is found. -/
def processLegendCandle (st : BState) (candleIndex : Nat) (candle : CandleData)
    (dynamicThreshold : ℚ) : Except String (Option ThresholdResult) :=
  if isLegendCandle st.candles st.runConfig candleIndex = false then Except.ok none
  else
    let upwardThreshold := upwardThresholdOf candle dynamicThreshold
    let downwardThreshold := downwardThresholdOf candle dynamicThreshold
    let softPrec : Nat :=
      match st.symbolInfo with
      | some info => if info.pricePrecision = 0 then 2 else info.pricePrecision
      | none => 2
    match formatPrice st.symbolInfo upwardThreshold,
          formatPrice st.symbolInfo downwardThreshold,
          formatCandleDetails st.symbolInfo candle with
    | Except.ok upS, Except.ok downS, Except.ok details =>
      let result : ThresholdResult :=
        { Legend_Candle_no := st.legendCandles + 1
          timestamp := candle.openTime
          LegendCandle :=
            { currentDynamicThreshold := roundToFixed softPrec dynamicThreshold
              upwardThreshold := upS
              downwardThreshold := downS
              LegendCandleDifference :=
                roundToFixed 2 (|candle.close - candle.openPrice| / candle.openPrice * 100)
              LegendCandleDetails := details }
          entry := none
          success := false }
      match scanForward st.symbolInfo upwardThreshold downwardThreshold 0
              (lookForwardSlice st.candles st.runConfig candleIndex) with
      | Except.error e => Except.error e
      | Except.ok none => Except.ok (some result)
      | Except.ok (some entry) => Except.ok (some { result with entry := some entry, success := true })
    | Except.error e, _, _ => Except.error e
    | _, Except.error e, _ => Except.error e
    | _, _, Except.error e => Except.error e

/-- The main loop of `findThresholds` (lines 435 to 462): for each index
compute the dynamic threshold (window average times multiplier), run
`processLegendCandle`, and on a non-null result increment the legend
counter, append the result, and increment the success counter when
`result.success`. -/
def findThresholdsLoop : BState → List Nat → List ThresholdResult →
    Except String (List ThresholdResult × BState)
  | st, [], acc => Except.ok (acc, st)
  | st, i :: rest, acc =>
    match processLegendCandle st i (st.candles.getD i default)
        (dynamicThresholdAt st.candles st.runConfig i) with
    | Except.error e => Except.error e
    | Except.ok none => findThresholdsLoop st rest acc
    | Except.ok (some result) =>
        findThresholdsLoop
          { st with
              legendCandles := st.legendCandles + 1
              successfulTrades := st.successfulTrades + (if result.success then 1 else 0) }
          rest (acc ++ [result])

/-- `Backtester.saveResults` (lines 469 to 504): throws when the symbol
info is unset, otherwise assembles the `BacktestResult` record (the file
write is I/O outside the model). -/
def saveResults (st : BState) (results : List ThresholdResult) : Except String BacktestResult :=
  match st.symbolInfo with
  | none => Except.error ("Symbol info not set before saving results")
  | some info =>
    Except.ok
      { symbol := st.symbol
        timeframe := st.runConfig.timeframe
        symbolInfo := info
        config := st.runConfig
        results := results
        stats :=
          { totalCandles := st.totalCandles
            legendCandles := st.legendCandles
            successfulTrades := st.successfulTrades
            successRate :=
              if 0 < st.legendCandles then
                ((st.successfulTrades : ℚ) / (st.legendCandles : ℚ)) * 100
              else 0 } }

/-- `Backtester.findThresholds` (lines 418 to 467): short-circuit to an
empty result list when the series is shorter than the lookback period,
otherwise run the main loop over indices `lookbackPeriod` to
`length - 1` and finally call `saveResults`. -/
def findThresholds (st : BState) : Except String (List ThresholdResult × BState) :=
  let lookbackPeriod := getLookbackPeriod st.runConfig
  if st.candles.length < lookbackPeriod then Except.ok ([], st)
  else
    match findThresholdsLoop st (List.range' lookbackPeriod (st.candles.length - lookbackPeriod)) [] with
    | Except.error e => Except.error e
    | Except.ok (results, st1) =>
      match saveResults st1 results with
      | Except.error e => Except.error e
      | Except.ok _ => Except.ok (results, st1)

/-- `Backtester.getStats` (lines 506 to 516). -/
def getStats (st : BState) : Stats :=
  { totalCandles := st.totalCandles
    legendCandles := st.legendCandles
    successfulTrades := st.successfulTrades
    successRate :=
      if 0 < st.legendCandles then
        ((st.successfulTrades : ℚ) / (st.legendCandles : ℚ)) * 100
      else 0 }

/-- A fresh `Backtester` after `loadData`: the constructor zero-initialises
the counters, `loadData` stores the candle list and counts every stored
candle into `totalCandles`. -/
def mkBacktester (symbol : String) (cfg : TradingConfig) (candles : List CandleData) : BState :=
  { symbol := symbol
    runConfig := cfg
    candles := candles
    totalCandles := candles.length
    legendCandles := 0
    successfulTrades := 0
    symbolInfo := none }

/-- `Backtester.setSymbolInfo`. -/
def setSymbolInfo (st : BState) (info : SymbolInfo) : BState :=
  { st with symbolInfo := some info }

/-- Specification-side recomputation of the run statistics from the
result list alone (stated by the spec as recomputable at any time):
legend count is the list length, success count is the number of
successful results, success rate by the same formula the code uses. -/
def statsFromResults (totalCandles : Nat) (results : List ThresholdResult) : Stats :=
  { totalCandles := totalCandles
    legendCandles := results.length
    successfulTrades := (results.filter (fun r => r.success)).length
    successRate :=
      if 0 < results.length then
        (((results.filter (fun r => r.success)).length : ℚ) / (results.length : ℚ)) * 100
      else 0 }

/-- The result list of a run, `[]` when the run throws. -/
def resultsOfRun (st : BState) : List ThresholdResult :=
  match findThresholds st with
  | Except.ok (rs, _) => rs
  | Except.error _ => []

/-- The state after a run, the input state when the run throws. -/
def finalStateOfRun (st : BState) : BState :=
  match findThresholds st with
  | Except.ok (_, st1) => st1
  | Except.error _ => st

/-- Helper to build concrete candles (volume 1, close time 59 after open). -/
def mkCandle (t : Nat) (o h l c : ℚ) : CandleData :=
  { openTime := t, openPrice := o, high := h, low := l, close := c, volume := 1, closeTime := t + 59 }

set_option maxRecDepth 8000

deriving instance DecidableEq for Except

instance : DecidableEq (Nat × Bool × Option (Side × EntryReason × ℚ × Nat)) :=
  fun a b => inferInstanceAs (Decidable (a = b))

/-- Symbol precision metadata used by the concrete runs below. -/
def info9 : SymbolInfo := { symbol := "ETHUSDT", pricePrecision := 2, quantityPrecision := 3 }

/-- A window candle of the concrete scenario of the spec: open 100,
close 100.5, a 0.5 percent move. -/
def windowCandle9 : CandleData := mkCandle 0 100 100.5 100 100.5

/-- The scenario candle under evaluation: open 100, high 130, low 70,
close 120. -/
def legendCandle9 : CandleData := mkCandle 10 100 130 70 120

/-- The forward candle of the scenario, with high 130. -/
def forwardCandle9 : CandleData := mkCandle 11 100 130 100 100

/-- The concrete scenario run: timeframe `1d` (lookback 10, the closest
realizable lookback, since the engine keys the lookback period on the
timeframe), multiplier 2, base threshold 15, ten window candles, the
scenario candle, one forward candle. -/
def st9 : BState :=
  setSymbolInfo
    (mkBacktester ("ETHUSDT")
      { defaultConfig with timeframe := "1d", thresholdMultiplier := 2 }
      (List.replicate 10 windowCandle9 ++ [legendCandle9, forwardCandle9]))
    info9

/-- Concrete run for refuting C1: timeframe `1d` (lookback 10), ten window
candles each moving 1 percent, then a candle moving only 0.5 percent, so
that the `isLegendCandle` check fails at position 10. -/
def cex1State : BState :=
  setSymbolInfo
    (mkBacktester ("ETHUSDT") { defaultConfig with timeframe := "1d" }
      (List.replicate 10 (mkCandle 0 100 101 99 101) ++ [mkCandle 10 100 100.6 99.9 100.5]))
    info9

/-- Concrete short-series run for C5: one candle, lookback 10. -/
def cex5State : BState :=
  setSymbolInfo
    (mkBacktester ("ETHUSDT") { defaultConfig with timeframe := "1d" }
      [mkCandle 0 100 101 99 100.5])
    info9

lemma formatPrice_some (info : SymbolInfo) (p : ℚ) :
    formatPrice (some info) p = Except.ok (roundToFixed info.pricePrecision p) := rfl

lemma formatCandleDetails_some (info : SymbolInfo) (c : CandleData) :
    formatCandleDetails (some info) c = Except.ok
      { openPrice := roundToFixed info.pricePrecision c.openPrice
        high := roundToFixed info.pricePrecision c.high
        low := roundToFixed info.pricePrecision c.low
        close := roundToFixed info.pricePrecision c.close
        volume := c.volume } := rfl

lemma scanForward_ne_error (info : SymbolInfo) (up down : ℚ) :
    ∀ (l : List CandleData) (k : Nat) (e : String),
      scanForward (some info) up down k l ≠ Except.error e := by
  intro l
  induction l with
  | nil => intro k e h; simp [scanForward] at h
  | cons c rest ih =>
    intro k e h
    by_cases h1 : up ≤ c.high
    · simp [scanForward, h1, formatPrice_some, formatCandleDetails_some] at h
    · by_cases h2 : c.low ≤ down
      · simp [scanForward, h1, h2, formatPrice_some, formatCandleDetails_some] at h
      · simp only [scanForward, if_neg h1, if_neg h2] at h
        exact ih _ _ h

lemma scanForward_exists_ok (info : SymbolInfo) (up down : ℚ) (l : List CandleData) (k : Nat) :
    ∃ eo, scanForward (some info) up down k l = Except.ok eo := by
  cases h : scanForward (some info) up down k l with
  | ok eo => exact ⟨eo, rfl⟩
  | error e => exact absurd h (scanForward_ne_error info up down l k e)

lemma scanForward_eq_none (osi : Option SymbolInfo) (up down : ℚ) :
    ∀ (l : List CandleData) (k : Nat), (∀ d ∈ l, ¬ entryTrigger up down d) →
      scanForward osi up down k l = Except.ok none := by
  intro l
  induction l with
  | nil => intro k _; simp [scanForward]
  | cons c rest ih =>
    intro k hall
    have hc := hall c (by simp)
    rw [entryTrigger, not_or] at hc
    simp only [scanForward, if_neg hc.1, if_neg hc.2]
    exact ih (k + 1) (fun d hd => hall d (by simp [hd]))

lemma scanForward_ok_some (info : SymbolInfo) (up down : ℚ) :
    ∀ (l : List CandleData) (k : Nat) (en : Entry),
      scanForward (some info) up down k l = Except.ok (some en) →
      ∃ m, ∃ hm : m < l.length, en.candlesUntilThreshold = k + m + 1 ∧
        entryTrigger up down (l.get ⟨m, hm⟩) := by
  intro l
  induction l with
  | nil => intro k en h; simp [scanForward] at h
  | cons c rest ih =>
    intro k en h
    by_cases h1 : up ≤ c.high
    · simp [scanForward, h1, formatPrice_some, formatCandleDetails_some] at h
      refine ⟨0, by simp, ?_, ?_⟩
      · rw [← h]
      · exact Or.inl h1
    · by_cases h2 : c.low ≤ down
      · simp [scanForward, h1, h2, formatPrice_some, formatCandleDetails_some] at h
        refine ⟨0, by simp, ?_, ?_⟩
        · rw [← h]
        · exact Or.inr h2
      · simp only [scanForward, if_neg h1, if_neg h2] at h
        obtain ⟨m, hm, hcnt, htrig⟩ := ih (k + 1) en h
        exact ⟨m + 1, by simpa using Nat.succ_lt_succ hm, by omega, by simpa using htrig⟩

lemma scanForward_first_upward (info : SymbolInfo) (up down : ℚ) (c : CandleData)
    (hhigh : up ≤ c.high) :
    ∀ (pre : List CandleData) (k : Nat) (post : List CandleData),
      (∀ d ∈ pre, ¬ entryTrigger up down d) →
      ∃ en, scanForward (some info) up down k (pre ++ c :: post) = Except.ok (some en) ∧
        en.reason = EntryReason.UpwardThresholdMet ∧ en.side = Side.LONG ∧
        en.price = up ∧ en.candlesUntilThreshold = k + pre.length + 1 := by
  intro pre
  induction pre with
  | nil =>
    intro k post _
    refine ⟨{ reason := EntryReason.UpwardThresholdMet, side := Side.LONG, price := up,
              formatted_price := roundToFixed info.pricePrecision up, time := c.openTime,
              candlesUntilThreshold := k + 1,
              PositionEntryCandleDetails :=
                { openPrice := roundToFixed info.pricePrecision c.openPrice
                  high := roundToFixed info.pricePrecision c.high
                  low := roundToFixed info.pricePrecision c.low
                  close := roundToFixed info.pricePrecision c.close
                  volume := c.volume } }, ?_, rfl, rfl, rfl, by simp⟩
    simp [scanForward, hhigh, formatPrice_some, formatCandleDetails_some]
  | cons d pre ih =>
    intro k post hall
    have hd := hall d (by simp)
    rw [entryTrigger, not_or] at hd
    simp only [List.cons_append, scanForward, if_neg hd.1, if_neg hd.2]
    obtain ⟨en, hscan, h1, h2, h3, h4⟩ := ih (k + 1) post (fun x hx => hall x (by simp [hx]))
    exact ⟨en, hscan, h1, h2, h3, by rw [h4]; simp; omega⟩

lemma processLegendCandle_none_of_gate_false (st : BState) (i : Nat) (c : CandleData) (dt : ℚ)
    (h : isLegendCandle st.candles st.runConfig i = false) :
    processLegendCandle st i c dt = Except.ok none := by
  simp [processLegendCandle, h]

lemma processLegendCandle_gate_false_of_none (st : BState) (i : Nat) (c : CandleData) (dt : ℚ)
    (h : processLegendCandle st i c dt = Except.ok none) :
    isLegendCandle st.candles st.runConfig i = false := by
  cases hg : isLegendCandle st.candles st.runConfig i
  · rfl
  · exfalso
    cases hsi : st.symbolInfo with
    | none => simp [processLegendCandle, hg, hsi, formatPrice] at h
    | some info =>
      obtain ⟨eo, hscan⟩ := scanForward_exists_ok info (upwardThresholdOf c dt)
        (downwardThresholdOf c dt) (lookForwardSlice st.candles st.runConfig i) 0
      simp [processLegendCandle, hg, hsi, formatPrice_some, formatCandleDetails_some, hscan] at h
      cases eo <;> simp at h

lemma processLegendCandle_ok_some_inv (st : BState) (i : Nat) (c : CandleData) (dt : ℚ)
    (r : ThresholdResult) (h : processLegendCandle st i c dt = Except.ok (some r)) :
    ∃ info, st.symbolInfo = some info ∧
      isLegendCandle st.candles st.runConfig i = true ∧
      r.Legend_Candle_no = st.legendCandles + 1 ∧
      r.timestamp = c.openTime ∧
      r.LegendCandle.upwardThreshold =
        roundToFixed info.pricePrecision (upwardThresholdOf c dt) ∧
      r.LegendCandle.downwardThreshold =
        roundToFixed info.pricePrecision (downwardThresholdOf c dt) ∧
      ∃ eo, scanForward (some info) (upwardThresholdOf c dt) (downwardThresholdOf c dt) 0
          (lookForwardSlice st.candles st.runConfig i) = Except.ok eo ∧
        r.entry = eo ∧ r.success = eo.isSome := by
  cases hg : isLegendCandle st.candles st.runConfig i
  · rw [processLegendCandle_none_of_gate_false st i c dt hg] at h
    simp at h
  · cases hsi : st.symbolInfo with
    | none => simp [processLegendCandle, hg, hsi, formatPrice] at h
    | some info =>
      obtain ⟨eo, hscan⟩ := scanForward_exists_ok info (upwardThresholdOf c dt)
        (downwardThresholdOf c dt) (lookForwardSlice st.candles st.runConfig i) 0
      refine ⟨info, rfl, rfl, ?_⟩
      cases eo with
      | none =>
        simp [processLegendCandle, hg, hsi, formatPrice_some, formatCandleDetails_some,
          hscan] at h
        rw [← h]
        exact ⟨rfl, rfl, rfl, rfl, none, hscan, rfl, rfl⟩
      | some en =>
        simp [processLegendCandle, hg, hsi, formatPrice_some, formatCandleDetails_some,
          hscan] at h
        rw [← h]
        exact ⟨rfl, rfl, rfl, rfl, some en, hscan, rfl, rfl⟩

lemma processLegendCandle_ne_error (st : BState) (i : Nat) (c : CandleData) (dt : ℚ)
    (info : SymbolInfo) (hsi : st.symbolInfo = some info) (e : String) :
    processLegendCandle st i c dt ≠ Except.error e := by
  intro h
  cases hg : isLegendCandle st.candles st.runConfig i
  · rw [processLegendCandle_none_of_gate_false st i c dt hg] at h
    simp at h
  · obtain ⟨eo, hscan⟩ := scanForward_exists_ok info (upwardThresholdOf c dt)
      (downwardThresholdOf c dt) (lookForwardSlice st.candles st.runConfig i) 0
    simp [processLegendCandle, hg, hsi, formatPrice_some, formatCandleDetails_some,
      hscan] at h
    cases eo <;> simp at h

lemma processLegendCandle_of_none (st : BState) (i : Nat) (c : CandleData) (dt : ℚ)
    (hsi : st.symbolInfo = none) :
    processLegendCandle st i c dt = Except.ok none ∨
      processLegendCandle st i c dt = Except.error ("Symbol info not set") := by
  cases hg : isLegendCandle st.candles st.runConfig i
  · exact Or.inl (processLegendCandle_none_of_gate_false st i c dt hg)
  · right
    simp [processLegendCandle, hg, hsi, formatPrice]

lemma findThresholdsLoop_ok_inv :
    ∀ (idxs : List Nat) (st : BState) (acc rs : List ThresholdResult) (st1 : BState),
      findThresholdsLoop st idxs acc = Except.ok (rs, st1) →
      ∃ new, rs = acc ++ new ∧
        st1.symbol = st.symbol ∧ st1.runConfig = st.runConfig ∧ st1.candles = st.candles ∧
        st1.totalCandles = st.totalCandles ∧ st1.symbolInfo = st.symbolInfo ∧
        st1.legendCandles = st.legendCandles + new.length ∧
        st1.successfulTrades = st.successfulTrades + (new.filter (fun r => r.success)).length ∧
        new.length = (idxs.filter (fun j => isLegendCandle st.candles st.runConfig j)).length ∧
        new.map (fun r => r.Legend_Candle_no) =
          List.range' (st.legendCandles + 1) new.length ∧
        ∀ r ∈ new, r.success = r.entry.isSome := by
  intro idxs
  induction idxs with
  | nil =>
    intro st acc rs st1 h
    simp only [findThresholdsLoop, Except.ok.injEq, Prod.mk.injEq] at h
    refine ⟨[], by simp [h.1], ?_⟩
    rw [← h.2]
    simp
  | cons i rest ih =>
    intro st acc rs st1 h
    cases hp : processLegendCandle st i (st.candles.getD i default)
        (dynamicThresholdAt st.candles st.runConfig i) with
    | error e =>
      simp only [findThresholdsLoop, hp] at h
      exact absurd h (by simp)
    | ok oi =>
      cases oi with
      | none =>
        have hg := processLegendCandle_gate_false_of_none st i _ _ hp
        simp only [findThresholdsLoop, hp] at h
        obtain ⟨new, hrs, hsym, hcfg, hcand, htot, hsi, hleg, hsucc, hcount, hmap, hiff⟩ :=
          ih st acc rs st1 h
        exact ⟨new, hrs, hsym, hcfg, hcand, htot, hsi, hleg, hsucc,
          by rw [hcount]; simp [List.filter_cons, hg], hmap, hiff⟩
      | some r =>
        obtain ⟨info, hsiSt, hg, hno, -, -, -, eo, hscan, hentry, hsuccEq⟩ :=
          processLegendCandle_ok_some_inv st i _ _ r hp
        simp only [findThresholdsLoop, hp] at h
        obtain ⟨new, hrs, hsym, hcfg, hcand, htot, hsi, hleg, hsucc, hcount, hmap, hiff⟩ :=
          ih _ _ rs st1 h
        refine ⟨r :: new, by simpa using hrs, by simpa using hsym, by simpa using hcfg,
          by simpa using hcand, by simpa using htot, by simpa using hsi, ?_, ?_, ?_, ?_, ?_⟩
        · simp only [hleg]; simp; omega
        · simp only [hsucc]
          cases hr : r.success <;> (simp [List.filter_cons, hr]; try omega)
        · simp only [List.length_cons, List.filter_cons, hg]
          rw [hcount]
          simp
        · rw [List.length_cons, List.range'_succ, List.map_cons, hno]
          refine congrArg (fun l => (st.legendCandles + 1) :: l) ?_
          rw [hmap]
        · intro x hx
          rcases List.mem_cons.mp hx with hx | hx
          · rw [hx, hentry, hsuccEq]
          · exact hiff x hx

lemma findThresholdsLoop_ne_error (info : SymbolInfo) :
    ∀ (idxs : List Nat) (st : BState) (acc : List ThresholdResult),
      st.symbolInfo = some info → ∀ e, findThresholdsLoop st idxs acc ≠ Except.error e := by
  intro idxs
  induction idxs with
  | nil => intro st acc _ e h; simp [findThresholdsLoop] at h
  | cons i rest ih =>
    intro st acc hsi e h
    cases hp : processLegendCandle st i (st.candles.getD i default)
        (dynamicThresholdAt st.candles st.runConfig i) with
    | error e2 => exact processLegendCandle_ne_error st i _ _ info hsi e2 hp
    | ok oi =>
      cases oi with
      | none =>
        simp only [findThresholdsLoop, hp] at h
        exact ih st acc hsi e h
      | some r =>
        simp only [findThresholdsLoop, hp] at h
        exact ih _ _ (by simpa using hsi) e h

lemma findThresholdsLoop_exists_ok (info : SymbolInfo) (idxs : List Nat) (st : BState)
    (acc : List ThresholdResult) (hsi : st.symbolInfo = some info) :
    ∃ rs st1, findThresholdsLoop st idxs acc = Except.ok (rs, st1) := by
  cases h : findThresholdsLoop st idxs acc with
  | ok p =>
    obtain ⟨rs1, st1⟩ := p
    exact ⟨rs1, st1, rfl⟩
  | error e => exact absurd h (findThresholdsLoop_ne_error info idxs st acc hsi e)

lemma findThresholdsLoop_of_none :
    ∀ (idxs : List Nat) (st : BState) (acc : List ThresholdResult), st.symbolInfo = none →
      findThresholdsLoop st idxs acc = Except.ok (acc, st) ∨
        ∃ e, findThresholdsLoop st idxs acc = Except.error e := by
  intro idxs
  induction idxs with
  | nil => intro st acc _; left; simp [findThresholdsLoop]
  | cons i rest ih =>
    intro st acc hsi
    rcases processLegendCandle_of_none st i (st.candles.getD i default)
        (dynamicThresholdAt st.candles st.runConfig i) hsi with hp | hp
    · rcases ih st acc hsi with hl | ⟨e, hl⟩
      · left
        simp only [findThresholdsLoop, hp]
        exact hl
      · right
        exact ⟨e, by simp only [findThresholdsLoop, hp]; exact hl⟩
    · right
      exact ⟨"Symbol info not set", by simp only [findThresholdsLoop, hp]⟩

lemma saveResults_none (st : BState) (rs : List ThresholdResult) (hsi : st.symbolInfo = none) :
    saveResults st rs = Except.error ("Symbol info not set before saving results") := by
  simp [saveResults, hsi]

lemma saveResults_some (st : BState) (rs : List ThresholdResult) (info : SymbolInfo)
    (hsi : st.symbolInfo = some info) :
    saveResults st rs = Except.ok
      { symbol := st.symbol, timeframe := st.runConfig.timeframe, symbolInfo := info,
        config := st.runConfig, results := rs, stats := getStats st } := by
  simp [saveResults, hsi, getStats]

lemma findThresholds_ok_of_some (st : BState) (info : SymbolInfo)
    (hsi : st.symbolInfo = some info)
    (hlen : getLookbackPeriod st.runConfig ≤ st.candles.length) :
    ∃ rs st1, findThresholds st = Except.ok (rs, st1) := by
  obtain ⟨rs, st1, hloop⟩ := findThresholdsLoop_exists_ok info
    (List.range' (getLookbackPeriod st.runConfig)
      (st.candles.length - getLookbackPeriod st.runConfig)) st [] hsi
  have hsi1 : st1.symbolInfo = some info := by
    obtain ⟨new, -, -, -, -, -, hsi1, -⟩ :=
      findThresholdsLoop_ok_inv _ st [] rs st1 hloop
    rw [hsi1, hsi]
  refine ⟨rs, st1, ?_⟩
  simp only [findThresholds, if_neg (Nat.not_lt.mpr hlen), hloop,
    saveResults_some st1 rs info hsi1]

lemma findThresholds_short (st : BState)
    (hlen : st.candles.length < getLookbackPeriod st.runConfig) :
    findThresholds st = Except.ok ([], st) := by
  simp only [findThresholds, if_pos hlen]

lemma lookForwardSlice_length (candles : List CandleData) (cfg : TradingConfig) (i : Nat) :
    (lookForwardSlice candles cfg i).length =
      min cfg.maxLookForwardCandles (candles.length - (i + 1)) := by
  simp [lookForwardSlice]

lemma lookForwardSlice_get (candles : List CandleData) (cfg : TradingConfig) (i m : Nat)
    (hm : m < (lookForwardSlice candles cfg i).length) :
    (lookForwardSlice candles cfg i).get ⟨m, hm⟩ = candles.getD (i + 1 + m) default := by
  have hb := hm
  rw [lookForwardSlice_length] at hb
  have hlen : i + 1 + m < candles.length := by omega
  rw [List.get_eq_getElem]
  simp only [lookForwardSlice, List.getElem_take, List.getElem_drop]
  exact (List.getD_eq_getElem candles default hlen).symm

/-- C2: for every ThresholdResult produced at position `i` of the scan
(with the dynamic threshold the loop passes at `i`), the dynamic
threshold is the arithmetic mean of the window movements times the
configured `thresholdMultiplier`, the computed upward threshold equals
`close * (1 + dt/100)`, the computed downward threshold equals
`close * (1 - dt/100)` (window candles assumed to have nonzero open),
and the recorded formatted threshold fields are exactly these values
rounded to the symbol price precision. -/
theorem C2_threshold_formulas (st : BState) (i : Nat) (c : CandleData) (dt : ℚ)
    (r : ThresholdResult)
    (_hc : c = st.candles.getD i default)
    (hdt : dt = dynamicThresholdAt st.candles st.runConfig i)
    (hr : processLegendCandle st i c dt = Except.ok (some r))
    (_hopen : ∀ w ∈ lookbackWindow st.candles (getLookbackPeriod st.runConfig) i,
      w.openPrice ≠ 0) :
    dt = averageDiffOf (lookbackWindow st.candles (getLookbackPeriod st.runConfig) i) *
        st.runConfig.thresholdMultiplier ∧
    upwardThresholdOf c dt = c.close * (1 + dt / 100) ∧
    downwardThresholdOf c dt = c.close * (1 - dt / 100) ∧
    ∃ info, st.symbolInfo = some info ∧
      r.LegendCandle.upwardThreshold =
        roundToFixed info.pricePrecision (upwardThresholdOf c dt) ∧
      r.LegendCandle.downwardThreshold =
        roundToFixed info.pricePrecision (downwardThresholdOf c dt) := by
  obtain ⟨info, hsi, -, -, -, hup, hdown, -⟩ :=
    processLegendCandle_ok_some_inv st i c dt r hr
  refine ⟨by rw [hdt]; rfl, ?_, ?_, info, hsi, hup, hdown⟩
  · unfold upwardThresholdOf thresholdValueOf
    ring
  · unfold downwardThresholdOf thresholdValueOf
    ring

/-- C2 witness: the formulas evaluated on the concrete scenario run
`st9` at position 10, where the dynamic threshold is 1 percent. -/
theorem C2_witness :
    (1 : ℚ) = averageDiffOf (lookbackWindow st9.candles (getLookbackPeriod st9.runConfig) 10) *
        st9.runConfig.thresholdMultiplier ∧
    upwardThresholdOf legendCandle9 1 = legendCandle9.close * (1 + (1 : ℚ) / 100) ∧
    downwardThresholdOf legendCandle9 1 = legendCandle9.close * (1 - (1 : ℚ) / 100) ∧
    ∃ info, st9.symbolInfo = some info ∧
      ((resultsOfRun st9).getD 0 default).LegendCandle.upwardThreshold =
        roundToFixed info.pricePrecision (upwardThresholdOf legendCandle9 1) ∧
      ((resultsOfRun st9).getD 0 default).LegendCandle.downwardThreshold =
        roundToFixed info.pricePrecision (downwardThresholdOf legendCandle9 1) :=
  C2_threshold_formulas st9 10 legendCandle9 1 ((resultsOfRun st9).getD 0 default)
    (by with_unfolding_all decide) (by with_unfolding_all decide)
    (by with_unfolding_all decide) (by with_unfolding_all decide)

/-- C3: in the forward entry scan, when the first candle at which any
trigger condition holds satisfies both `high` at or above the upward
threshold and `low` at or below the downward threshold, the emitted
entry is LONG with reason UpwardThresholdMet at price equal to the
upward threshold (the upward test comes first), and the scan stops at
that candle: `candlesUntilThreshold` counts exactly the candles up to
and including it. -/
theorem C3_upward_priority (info : SymbolInfo) (up down : ℚ)
    (pre post : List CandleData) (c : CandleData)
    (hpre : ∀ d ∈ pre, ¬ entryTrigger up down d)
    (hhigh : up ≤ c.high) (_hlow : c.low ≤ down) :
    ∃ en, scanForward (some info) up down 0 (pre ++ c :: post) = Except.ok (some en) ∧
      en.reason = EntryReason.UpwardThresholdMet ∧ en.side = Side.LONG ∧
      en.price = up ∧ en.candlesUntilThreshold = pre.length + 1 := by
  obtain ⟨en, hscan, h1, h2, h3, h4⟩ :=
    scanForward_first_upward info up down c hhigh pre 0 post hpre
  exact ⟨en, hscan, h1, h2, h3, by omega⟩

/-- Non-triggering candle used by the C3 witness (thresholds 101 and 99). -/
def preCandle3 : CandleData := mkCandle 0 100 100.5 99.5 100

/-- Candle meeting both thresholds at once, used by the C3 witness. -/
def bothCandle3 : CandleData := mkCandle 1 100 102 98 100

/-- C3 witness: with thresholds 101 and 99, one non-triggering candle and
then a candle with high 102 and low 98 (both conditions hold), the scan
yields a LONG entry at price 101 on the second candle. -/
theorem C3_witness :
    ∃ en, scanForward (some info9) 101 99 0 ([preCandle3] ++ bothCandle3 :: []) =
        Except.ok (some en) ∧
      en.reason = EntryReason.UpwardThresholdMet ∧ en.side = Side.LONG ∧
      en.price = 101 ∧ en.candlesUntilThreshold = [preCandle3].length + 1 :=
  C3_upward_priority info9 101 99 [preCandle3] [] bothCandle3
    (by with_unfolding_all decide) (by with_unfolding_all decide)
    (by with_unfolding_all decide)

/-- C4: for a ThresholdResult produced at position `i`, (a) when no candle
at any index in `i+1 .. min(i + maxLookForwardCandles, length - 1)`
meets a trigger condition, the result has no entry and `success` is
false (the scan inspects nothing outside that range, in particular never
the legend candle itself or earlier candles); (b) any entry produced has
`1 ≤ candlesUntilThreshold ≤ maxLookForwardCandles`, its triggering
candle lies inside the series, and the trigger condition holds at index
`i + candlesUntilThreshold`. -/
theorem C4_lookforward_window (st : BState) (i : Nat) (c : CandleData) (dt : ℚ)
    (r : ThresholdResult)
    (h : processLegendCandle st i c dt = Except.ok (some r)) :
    ((∀ j, i + 1 ≤ j →
        j < min (i + 1 + st.runConfig.maxLookForwardCandles) st.candles.length →
        ¬ entryTrigger (upwardThresholdOf c dt) (downwardThresholdOf c dt)
          (st.candles.getD j default)) →
      r.entry = none ∧ r.success = false) ∧
    ∀ en, r.entry = some en →
      1 ≤ en.candlesUntilThreshold ∧
      en.candlesUntilThreshold ≤ st.runConfig.maxLookForwardCandles ∧
      i + en.candlesUntilThreshold < st.candles.length ∧
      entryTrigger (upwardThresholdOf c dt) (downwardThresholdOf c dt)
        (st.candles.getD (i + en.candlesUntilThreshold) default) := by
  obtain ⟨info, hsi, hg, hno, hts, hup, hdown, eo, hscan, hentry, hsuccEq⟩ :=
    processLegendCandle_ok_some_inv st i c dt r h
  constructor
  · intro hnt
    have hall : ∀ d ∈ lookForwardSlice st.candles st.runConfig i,
        ¬ entryTrigger (upwardThresholdOf c dt) (downwardThresholdOf c dt) d := by
      intro d hd
      obtain ⟨⟨m, hm⟩, hget⟩ := List.mem_iff_get.mp hd
      rw [← hget, lookForwardSlice_get]
      have hb := hm
      rw [lookForwardSlice_length] at hb
      exact hnt (i + 1 + m) (by omega) (by omega)
    have h2 := scanForward_eq_none (some info) (upwardThresholdOf c dt)
      (downwardThresholdOf c dt) (lookForwardSlice st.candles st.runConfig i) 0 hall
    rw [hscan] at h2
    simp only [Except.ok.injEq] at h2
    rw [h2] at hentry hsuccEq
    exact ⟨hentry, by rw [hsuccEq]; rfl⟩
  · intro en hen
    rw [hentry] at hen
    rw [hen] at hscan
    obtain ⟨m, hm, hcnt, htrig⟩ := scanForward_ok_some info (upwardThresholdOf c dt)
      (downwardThresholdOf c dt) (lookForwardSlice st.candles st.runConfig i) 0 en hscan
    have hb := hm
    rw [lookForwardSlice_length] at hb
    have hget := lookForwardSlice_get st.candles st.runConfig i m hm
    rw [hget] at htrig
    refine ⟨by omega, by omega, by omega, ?_⟩
    have harith : i + en.candlesUntilThreshold = i + 1 + m := by omega
    rw [harith]
    exact htrig

/-- C4 witness: the bounds evaluated on the concrete scenario run `st9`
at position 10, whose single result has an entry on the first forward
candle. -/
theorem C4_witness :
    ((∀ j, 10 + 1 ≤ j →
        j < min (10 + 1 + st9.runConfig.maxLookForwardCandles) st9.candles.length →
        ¬ entryTrigger (upwardThresholdOf legendCandle9 1) (downwardThresholdOf legendCandle9 1)
          (st9.candles.getD j default)) →
      ((resultsOfRun st9).getD 0 default).entry = none ∧
        ((resultsOfRun st9).getD 0 default).success = false) ∧
    ∀ en, ((resultsOfRun st9).getD 0 default).entry = some en →
      1 ≤ en.candlesUntilThreshold ∧
      en.candlesUntilThreshold ≤ st9.runConfig.maxLookForwardCandles ∧
      10 + en.candlesUntilThreshold < st9.candles.length ∧
      entryTrigger (upwardThresholdOf legendCandle9 1) (downwardThresholdOf legendCandle9 1)
        (st9.candles.getD (10 + en.candlesUntilThreshold) default) :=
  C4_lookforward_window st9 10 legendCandle9 1 ((resultsOfRun st9).getD 0 default)
    (by with_unfolding_all decide)

lemma findThresholds_ok_inv (st : BState) (rs : List ThresholdResult) (st1 : BState)
    (h : findThresholds st = Except.ok (rs, st1)) :
    (st.candles.length < getLookbackPeriod st.runConfig ∧ rs = [] ∧ st1 = st) ∨
    (getLookbackPeriod st.runConfig ≤ st.candles.length ∧
      findThresholdsLoop st (List.range' (getLookbackPeriod st.runConfig)
        (st.candles.length - getLookbackPeriod st.runConfig)) [] = Except.ok (rs, st1)) := by
  by_cases hlen : st.candles.length < getLookbackPeriod st.runConfig
  · left
    rw [findThresholds_short st hlen] at h
    simp only [Except.ok.injEq, Prod.mk.injEq] at h
    exact ⟨hlen, h.1.symm, h.2.symm⟩
  · right
    refine ⟨Nat.not_lt.mp hlen, ?_⟩
    simp only [findThresholds, if_neg hlen] at h
    cases hloop : findThresholdsLoop st (List.range' (getLookbackPeriod st.runConfig)
        (st.candles.length - getLookbackPeriod st.runConfig)) [] with
    | error e =>
      rw [hloop] at h
      simp at h
    | ok p =>
      obtain ⟨rs1, st2⟩ := p
      rw [hloop] at h
      simp only [] at h
      cases hsave : saveResults st2 rs1 with
      | error e =>
        rw [hsave] at h
        simp at h
      | ok b =>
        rw [hsave] at h
        simp only [Except.ok.injEq, Prod.mk.injEq] at h
        rw [h.1, h.2]

/-- C1 (amended): the check `currentDiff at or above averageMove * baseThreshold`
(function `isLegendCandle`) is the legend-candle gate, not a diagnostic:
`processLegendCandle` returns null exactly when the check fails, and the
scan appends a ThresholdResult only for the positions past the warm-up
window at which the check passes — the result list has exactly one entry
per such position. -/
theorem C1_amended_gate (st : BState) (info : SymbolInfo)
    (hsi : st.symbolInfo = some info)
    (hlen : getLookbackPeriod st.runConfig ≤ st.candles.length) :
    (∀ i c dt, processLegendCandle st i c dt = Except.ok none ↔
        isLegendCandle st.candles st.runConfig i = false) ∧
    ∃ rs st1, findThresholds st = Except.ok (rs, st1) ∧
      rs.length = ((List.range' (getLookbackPeriod st.runConfig)
          (st.candles.length - getLookbackPeriod st.runConfig)).filter
            (fun j => isLegendCandle st.candles st.runConfig j)).length := by
  constructor
  · intro i c dt
    exact ⟨processLegendCandle_gate_false_of_none st i c dt,
      processLegendCandle_none_of_gate_false st i c dt⟩
  · obtain ⟨rs, st1, hloop⟩ := findThresholdsLoop_exists_ok info
      (List.range' (getLookbackPeriod st.runConfig)
        (st.candles.length - getLookbackPeriod st.runConfig)) st [] hsi
    obtain ⟨new, hrs, -, -, -, -, hsi1, -, -, hcount, -, -⟩ :=
      findThresholdsLoop_ok_inv _ st [] rs st1 hloop
    have hsi1s : st1.symbolInfo = some info := by rw [hsi1, hsi]
    refine ⟨rs, st1, ?_, ?_⟩
    · simp only [findThresholds, if_neg (Nat.not_lt.mpr hlen), hloop,
        saveResults_some st1 rs info hsi1s]
    · rw [hrs]
      simpa using hcount

/-- C1 witness: the amended statement applied to the concrete scenario
run `st9`. -/
theorem C1_amended_witness :
    (∀ i c dt, processLegendCandle st9 i c dt = Except.ok none ↔
        isLegendCandle st9.candles st9.runConfig i = false) ∧
    ∃ rs st1, findThresholds st9 = Except.ok (rs, st1) ∧
      rs.length = ((List.range' (getLookbackPeriod st9.runConfig)
          (st9.candles.length - getLookbackPeriod st9.runConfig)).filter
            (fun j => isLegendCandle st9.candles st9.runConfig j)).length :=
  C1_amended_gate st9 info9 (by with_unfolding_all decide) (by with_unfolding_all decide)

/-- C1 counterexample: in the concrete run `cex1State` position 10 has a
full lookback window before it (lookback 10, series length 11), yet the
run produces no ThresholdResult at all, because the advisory check
(`isLegendCandle`) fails there and suppresses emission. -/
theorem C1_counterexample :
    getLookbackPeriod cex1State.runConfig = 10 ∧
    cex1State.candles.length = 11 ∧
    isLegendCandle cex1State.candles cex1State.runConfig 10 = false ∧
    findThresholds cex1State = Except.ok ([], cex1State) := by
  with_unfolding_all decide

/-- C5 (amended): a series shorter than the lookback period yields an
empty result list without an error; of the statistics, the legend and
success counters and the success rate are exactly zero, while
`totalCandles` keeps the number of loaded candles (and is therefore not
zero for a nonempty short series). -/
theorem C5_amended_short_series (st : BState)
    (hlen : st.candles.length < getLookbackPeriod st.runConfig)
    (h0l : st.legendCandles = 0) (h0s : st.successfulTrades = 0) :
    findThresholds st = Except.ok ([], st) ∧
    getStats st = Stats.mk st.totalCandles 0 0 0 := by
  refine ⟨findThresholds_short st hlen, ?_⟩
  simp [getStats, h0l, h0s]

/-- C5 witness: the amended statement applied to the one-candle run. -/
theorem C5_witness :
    findThresholds cex5State = Except.ok ([], cex5State) ∧
    getStats cex5State = Stats.mk cex5State.totalCandles 0 0 0 :=
  C5_amended_short_series cex5State (by with_unfolding_all decide)
    (by with_unfolding_all decide) (by with_unfolding_all decide)

/-- C5 counterexample: a one-candle series (lookback 10) returns an empty
result list without error, but the recorded statistics are not all zero:
`totalCandles` is 1. -/
theorem C5_counterexample :
    cex5State.candles.length < getLookbackPeriod cex5State.runConfig ∧
    findThresholds cex5State = Except.ok ([], cex5State) ∧
    (getStats cex5State).totalCandles = 1 := by
  with_unfolding_all decide

/-- C6: in a run from a fresh engine state, the `Legend_Candle_no` fields
of the produced results are exactly 1, 2, ..., N in list order. -/
theorem C6_legend_numbers (st : BState) (rs : List ThresholdResult) (st1 : BState)
    (h0 : st.legendCandles = 0)
    (h : findThresholds st = Except.ok (rs, st1)) :
    rs.map (fun r => r.Legend_Candle_no) = List.range' 1 rs.length := by
  rcases findThresholds_ok_inv st rs st1 h with ⟨-, hrs, -⟩ | ⟨-, hloop⟩
  · rw [hrs]
    simp
  · obtain ⟨new, hrs, -, -, -, -, -, -, -, -, hmap, -⟩ :=
      findThresholdsLoop_ok_inv _ st [] rs st1 hloop
    rw [hrs]
    simp only [List.nil_append]
    rw [hmap, h0]

/-- C6 witness: the numbering on the concrete scenario run `st9`. -/
theorem C6_witness :
    (resultsOfRun st9).map (fun r => r.Legend_Candle_no) =
      List.range' 1 (resultsOfRun st9).length :=
  C6_legend_numbers st9 (resultsOfRun st9) (finalStateOfRun st9)
    (by with_unfolding_all decide) (by with_unfolding_all decide)

/-- C7 (amended): after a run from a fresh engine state, the recorded
statistics are exactly the statistics recomputed from the result list
alone: the legend counter is the list length, the success counter is the
number of successful results, and the recorded success rate is
`(successful / legend) * 100`, in percent (0 when there are no legend
candles); the stats block assembled by `saveResults` agrees. -/
theorem C7_stats_consistency (st : BState) (rs : List ThresholdResult) (st1 : BState)
    (h0l : st.legendCandles = 0) (h0s : st.successfulTrades = 0)
    (h : findThresholds st = Except.ok (rs, st1)) :
    st1.legendCandles = rs.length ∧
    st1.successfulTrades = (rs.filter (fun r => r.success)).length ∧
    getStats st1 = statsFromResults st1.totalCandles rs ∧
    ∀ b, saveResults st1 rs = Except.ok b → b.stats = statsFromResults st1.totalCandles rs := by
  have hmain : st1.legendCandles = rs.length ∧
      st1.successfulTrades = (rs.filter (fun r => r.success)).length := by
    rcases findThresholds_ok_inv st rs st1 h with ⟨-, hrs, hst⟩ | ⟨-, hloop⟩
    · rw [hst, hrs]
      exact ⟨h0l, h0s⟩
    · obtain ⟨new, hrs, -, -, -, -, -, hleg, hsucc, -, -, -⟩ :=
        findThresholdsLoop_ok_inv _ st [] rs st1 hloop
      rw [hrs]
      simp only [List.nil_append]
      rw [hleg, hsucc, h0l, h0s]
      simp
  obtain ⟨hl, hs⟩ := hmain
  have hstats : getStats st1 = statsFromResults st1.totalCandles rs := by
    simp only [getStats, statsFromResults, hl, hs]
  refine ⟨hl, hs, hstats, ?_⟩
  intro b hb
  cases hsi : st1.symbolInfo with
  | none =>
    rw [saveResults_none st1 rs hsi] at hb
    simp at hb
  | some info =>
    rw [saveResults_some st1 rs info hsi] at hb
    simp only [Except.ok.injEq] at hb
    rw [← hb]
    exact hstats

/-- C7 witness: the consistency applied to the concrete scenario run. -/
theorem C7_witness :
    (finalStateOfRun st9).legendCandles = (resultsOfRun st9).length ∧
    (finalStateOfRun st9).successfulTrades =
      ((resultsOfRun st9).filter (fun r => r.success)).length ∧
    getStats (finalStateOfRun st9) =
      statsFromResults (finalStateOfRun st9).totalCandles (resultsOfRun st9) ∧
    ∀ b, saveResults (finalStateOfRun st9) (resultsOfRun st9) = Except.ok b →
      b.stats = statsFromResults (finalStateOfRun st9).totalCandles (resultsOfRun st9) :=
  C7_stats_consistency st9 (resultsOfRun st9) (finalStateOfRun st9)
    (by with_unfolding_all decide) (by with_unfolding_all decide)
    (by with_unfolding_all decide)

/-- C7 counterexample: on the scenario run (one legend candle, one
success) the recorded success rate is 100, while the ratio
successful over legend is 1 — the recorded rate is the ratio scaled to
percent, not the bare ratio the claim states. -/
theorem C7_counterexample :
    (getStats (finalStateOfRun st9)).successRate = 100 ∧
    ((finalStateOfRun st9).successfulTrades : ℚ) /
      ((finalStateOfRun st9).legendCandles : ℚ) = 1 ∧
    (100 : ℚ) ≠ 1 := by
  with_unfolding_all decide

/-- C8: a run raises an error precisely when the symbol precision
metadata is unset and the series is long enough to pass the
insufficient-data short-circuit (so that formatted output is requested,
in `formatPrice` or in `saveResults`); with the metadata set no error is
raised, and a short series returns an empty result without error even
without the metadata. -/
theorem C8_symbol_info_error (st : BState) :
    (∃ e, findThresholds st = Except.error e) ↔
      st.symbolInfo = none ∧ getLookbackPeriod st.runConfig ≤ st.candles.length := by
  constructor
  · rintro ⟨e, he⟩
    by_cases hlen : st.candles.length < getLookbackPeriod st.runConfig
    · rw [findThresholds_short st hlen] at he
      simp at he
    · refine ⟨?_, Nat.not_lt.mp hlen⟩
      cases hsi : st.symbolInfo with
      | none => rfl
      | some info =>
        obtain ⟨rs, st1, hok⟩ := findThresholds_ok_of_some st info hsi (Nat.not_lt.mp hlen)
        rw [hok] at he
        simp at he
  · rintro ⟨hsi, hlen⟩
    have hnlt := Nat.not_lt.mpr hlen
    rcases findThresholdsLoop_of_none (List.range' (getLookbackPeriod st.runConfig)
        (st.candles.length - getLookbackPeriod st.runConfig)) st [] hsi with hl | ⟨e, hl⟩
    · refine ⟨"Symbol info not set before saving results", ?_⟩
      simp only [findThresholds, if_neg hnlt, hl, saveResults_none st [] hsi]
    · refine ⟨e, ?_⟩
      simp only [findThresholds, if_neg hnlt, hl]

/-- C9 (corrected scenario): with lookback 10 (timeframe `1d`; a lookback
of 3 is not reachable, the engine keys the lookback on the timeframe),
multiplier 2, ten window candles of open 100 and close 100.5, then the
candle open 100, high 130, low 70, close 120: the average window move is
exactly 0.5 percent, the dynamic threshold is 1 percent, the upward
threshold is 121.2 (based on the close of 120, not 101) and the downward
threshold is 118.8; the forward candle with high 130 yields a LONG entry
at price 121.2 with `candlesUntilThreshold` 1 and `success` true. -/
theorem C9_amended_scenario :
    averageDiffOf (lookbackWindow st9.candles (getLookbackPeriod st9.runConfig) 10) = 1 / 2 ∧
    dynamicThresholdAt st9.candles st9.runConfig 10 = 1 ∧
    upwardThresholdOf legendCandle9 1 = 606 / 5 ∧
    downwardThresholdOf legendCandle9 1 = 594 / 5 ∧
    (resultsOfRun st9).map (fun r => (r.Legend_Candle_no, r.success,
        r.entry.map (fun e => (e.side, e.reason, e.price, e.candlesUntilThreshold)))) =
      [(1, true, some (Side.LONG, EntryReason.UpwardThresholdMet, 606 / 5, 1))] := by
  with_unfolding_all decide

/-- C9 counterexample: on the spec scenario numbers (window average 0.5,
dynamic threshold 1), the computed upward and downward thresholds are
121.2 and 118.8, not the claimed 101 and 99, and the actual run enters
LONG at 121.2, not 101. -/
theorem C9_counterexample :
    averageDiffOf (List.replicate 3 windowCandle9) = 1 / 2 ∧
    upwardThresholdOf legendCandle9 (1 / 2 * 2) = 606 / 5 ∧
    downwardThresholdOf legendCandle9 (1 / 2 * 2) = 594 / 5 ∧
    upwardThresholdOf legendCandle9 (1 / 2 * 2) ≠ 101 ∧
    downwardThresholdOf legendCandle9 (1 / 2 * 2) ≠ 99 ∧
    (resultsOfRun st9).map (fun r => r.entry.map (fun e => e.price)) = [some (606 / 5)] := by
  with_unfolding_all decide

/-- C10: every ThresholdResult returned by a run has `success` true
exactly when the optional entry is present. -/
theorem C10_success_iff_entry (st : BState) (rs : List ThresholdResult) (st1 : BState)
    (h : findThresholds st = Except.ok (rs, st1)) :
    rs.all (fun r => r.success == r.entry.isSome) = true := by
  rcases findThresholds_ok_inv st rs st1 h with ⟨-, hrs, -⟩ | ⟨-, hloop⟩
  · rw [hrs]
    rfl
  · obtain ⟨new, hrs, -, -, -, -, -, -, -, -, -, hiff⟩ :=
      findThresholdsLoop_ok_inv _ st [] rs st1 hloop
    rw [hrs]
    simp only [List.nil_append]
    rw [List.all_eq_true]
    intro r hr
    rw [hiff r hr]
    simp

/-- C10 witness: the invariant evaluated on the concrete scenario run. -/
theorem C10_witness :
    (resultsOfRun st9).all (fun r => r.success == r.entry.isSome) = true :=
  C10_success_iff_entry st9 (resultsOfRun st9) (finalStateOfRun st9)
    (by with_unfolding_all decide)
